import Mathlib

/-!
Shallow embedding of the `retry` package (vimeo/go-retry): the exponential
backoff generator (`Backoff`), the retry driver (`Retryable.Retry` and the
package-level `Retry`), and the error-aggregation types (`Error`, `Errors`,
`CtxErrors` results).

Modelling conventions:
* `time.Duration` values (int64 nanoseconds) are modelled as `ℤ`.
* `float64` arithmetic (`math.Pow`, jitter computation) is modelled over `ℚ`
  (the ideal-real model of the floating-point computation); the Go conversion
  `time.Duration(x)` from `float64` truncates toward zero, modelled by `truncQ`.
* Each call site of `rand.Float64()` (a value in `[0,1)`) becomes an explicit
  parameter: `r1` feeds `Backoff.jitter`, `r2` feeds
  `Backoff.jitterLow`/`Backoff.jitterHigh`.
* `log.Panicf` (the `MinBackoff > MaxBackoff` configuration fault) is modelled
  by an `Option` result (`none` = panic).
* The external clock / context collaborators (`clock.Now`, `clock.Until`,
  `clock.SleepFor`, `ctx.Deadline`, `ctx.Err`) are modelled as oracles in a
  `RetryEnv`, indexed by the loop-iteration counter.
-/

/-- Truncation of a rational toward zero: the semantics of Go's
`time.Duration(x)` conversion from a `float64` `x`. -/
def truncQ (q : ℚ) : ℤ := if 0 ≤ q then ⌊q⌋ else ⌈q⌉

/-- The `Backoff` struct: state implementing a generator returning a sequence
of intervals to wait. `step` is the private counter; durations are in
nanoseconds; `Jitter` and `ExpFactor` are the `float64` fields. -/
structure Backoff where
  step : ℤ
  MaxBackoff : ℤ
  MinBackoff : ℤ
  Jitter : ℚ
  ExpFactor : ℚ
deriving DecidableEq, Repr

/-- The body of `Backoff.BackoffN` after the configuration-fault check, with
the two `rand.Float64()` draws `r1` (for `jitter()`) and `r2` (for
`jitterLow()` / `jitterHigh()`) passed explicitly:
1. `expMul := math.Pow(b.ExpFactor, float64(n))`;
2. `backoffNS := min(max(float64(minBackoff)*expMul, 0), float64(maxBackoff))`
   truncated back to a duration;
3. symmetric jitter `b.Jitter * (r1 - 0.5) * 2`, replaced by one-sided
   down-jitter `-b.Jitter * r2` at the cap and one-sided up-jitter
   `b.Jitter * r2` at the floor;
4. the jitter fraction is applied multiplicatively and the sum re-truncated;
5. final clamp into `[MinBackoff, MaxBackoff]`. -/
def backoffNval (b : Backoff) (n : ℤ) (r1 r2 : ℚ) : ℤ :=
  let expMul : ℚ := b.ExpFactor ^ n
  let backoffNS : ℚ := min (max ((b.MinBackoff : ℚ) * expMul) 0) (b.MaxBackoff : ℚ)
  let backoff0 : ℤ := truncQ backoffNS
  let jitter0 : ℚ := b.Jitter * (r1 - 1/2) * 2
  let p : ℤ × ℚ :=
    if b.MaxBackoff ≤ backoff0 then (b.MaxBackoff, -b.Jitter * r2)
    else if backoff0 ≤ b.MinBackoff then (b.MinBackoff, b.Jitter * r2)
    else (backoff0, jitter0)
  let backoff1 : ℤ := p.1 + truncQ (p.2 * (p.1 : ℚ))
  if b.MaxBackoff < backoff1 then b.MaxBackoff
  else if backoff1 < b.MinBackoff then b.MinBackoff
  else backoff1

/-- Model of `Backoff.BackoffN`: stateless method computing the backoff interval for
the `n`-th retry. `none` models the `log.Panicf` raised when
`MinBackoff > MaxBackoff`. -/
def Backoff.BackoffN (b : Backoff) (n : ℤ) (r1 r2 : ℚ) : Option ℤ :=
  if b.MaxBackoff < b.MinBackoff then none
  else some (backoffNval b n r1 r2)

/-- Model of `Backoff.Clone`: returns a copy of the receiver, field by field
(including the private `step`). -/
def Backoff.Clone (b : Backoff) : Backoff :=
  { step := b.step
    MaxBackoff := b.MaxBackoff
    MinBackoff := b.MinBackoff
    Jitter := b.Jitter
    ExpFactor := b.ExpFactor }

/-- Model of `Backoff.Reset`: zeroes the step-count. The Go method mutates its
receiver in place; the functional model returns the updated value. -/
def Backoff.Reset (b : Backoff) : Backoff := { b with step := 0 }

/-- Model of `Backoff.Next`: returns `BackoffN(step)` and increments `step`. On the
configuration-fault panic the program never reaches the increment. -/
def Backoff.Next (b : Backoff) (r1 r2 : ℚ) : Option ℤ × Backoff :=
  match b.BackoffN b.step r1 r2 with
  | none => (none, b)
  | some d => (some d, { b with step := b.step + 1 })

-- Basic facts about `truncQ`.

theorem truncQ_intCast (z : ℤ) : truncQ (z : ℚ) = z := by
  unfold truncQ
  split <;> simp

theorem truncQ_of_nonneg {q : ℚ} (h : 0 ≤ q) : truncQ q = ⌊q⌋ := by
  unfold truncQ
  exact if_pos h

theorem truncQ_nonneg {q : ℚ} (h : 0 ≤ q) : 0 ≤ truncQ q := by
  rw [truncQ_of_nonneg h]
  exact Int.floor_nonneg.mpr h

theorem truncQ_le_self {q : ℚ} (h : 0 ≤ q) : (truncQ q : ℚ) ≤ q := by
  rw [truncQ_of_nonneg h]
  exact Int.floor_le q

theorem truncQ_nonpos {q : ℚ} (h : q ≤ 0) : truncQ q ≤ 0 := by
  unfold truncQ
  split
  · exact Int.floor_nonpos h
  · exact Int.ceil_le.mpr (by exact_mod_cast h)

-- Basic facts about `BackoffN`.

/-- With a valid configuration, `BackoffN` does not panic and computes
`backoffNval`. -/
theorem BackoffN_eq_some {b : Backoff} (hmm : b.MinBackoff ≤ b.MaxBackoff)
    (n : ℤ) (r1 r2 : ℚ) :
    b.BackoffN n r1 r2 = some (backoffNval b n r1 r2) := by
  unfold Backoff.BackoffN
  rw [if_neg (not_lt.mpr hmm)]

/-- Clamping: `backoffNval` always lands in `[MinBackoff, MaxBackoff]` when
`MinBackoff ≤ MaxBackoff`, thanks to the final clamp. -/
theorem backoffNval_mem {b : Backoff} (hmm : b.MinBackoff ≤ b.MaxBackoff)
    (n : ℤ) (r1 r2 : ℚ) :
    b.MinBackoff ≤ backoffNval b n r1 r2 ∧ backoffNval b n r1 r2 ≤ b.MaxBackoff := by
  unfold backoffNval
  dsimp only
  split_ifs <;> omega

/-- C1: For every configuration with `minBackoff <= maxBackoff`,
`0 < jitter < 1` and `expFactor > 1`, and for every `n >= 0`, `BackoffN(n)`
returns (no panic) a duration in the closed interval
`[minBackoff, maxBackoff]`. -/
theorem c1_backoffN_within_bounds (b : Backoff) (n : ℤ) (r1 r2 : ℚ)
    (hmm : b.MinBackoff ≤ b.MaxBackoff)
    (hj0 : 0 < b.Jitter) (hj1 : b.Jitter < 1) (hexp : 1 < b.ExpFactor)
    (hn : 0 ≤ n) :
    ∃ d : ℤ, b.BackoffN n r1 r2 = some d ∧
      b.MinBackoff ≤ d ∧ d ≤ b.MaxBackoff := by
  refine ⟨backoffNval b n r1 r2, BackoffN_eq_some hmm n r1 r2, ?_⟩
  exact backoffNval_mem hmm n r1 r2

/-- Witness for C1 at a concrete configuration. -/
theorem c1_backoffN_within_bounds_witness :
    ∃ d : ℤ, Backoff.BackoffN ⟨0, 1000, 100, 1/10, 2⟩ 3 (1/2) (1/2) = some d ∧
      (100 : ℤ) ≤ d ∧ d ≤ 1000 :=
  c1_backoffN_within_bounds ⟨0, 1000, 100, 1/10, 2⟩ 3 (1/2) (1/2)
    (by norm_num) (by norm_num) (by norm_num) (by norm_num) (by norm_num)

/-- C6: For every configuration with `0 <= minBackoff <= maxBackoff`,
`0 < jitter < 1` and `expFactor > 1`, `BackoffN(0)` returns a value in
`[minBackoff, minBackoff*(1+jitter)]`: the unjittered magnitude equals
`minBackoff`, so only the one-sided upward jitter (`jitterHigh`, the fraction
`jitter` scaled by the prng draw `r2 ∈ [0,1)`) is applied. -/
theorem c6_backoffN_zero_bounds (b : Backoff) (r1 r2 : ℚ)
    (hmin0 : 0 ≤ b.MinBackoff) (hmm : b.MinBackoff ≤ b.MaxBackoff)
    (hj0 : 0 < b.Jitter) (hj1 : b.Jitter < 1) (hexp : 1 < b.ExpFactor)
    (hr2a : 0 ≤ r2) (hr2b : r2 < 1) :
    ∃ d : ℤ, b.BackoffN 0 r1 r2 = some d ∧
      (b.MinBackoff : ℚ) ≤ (d : ℚ) ∧
      (d : ℚ) ≤ (b.MinBackoff : ℚ) * (1 + b.Jitter) := by
  obtain ⟨s, M, mn, J, Ex⟩ := b
  dsimp only at hmin0 hmm hj0 hj1 hexp ⊢
  refine ⟨backoffNval ⟨s, M, mn, J, Ex⟩ 0 r1 r2, BackoffN_eq_some hmm 0 r1 r2, ?_⟩
  have hminQ : (0 : ℚ) ≤ (mn : ℚ) := by exact_mod_cast hmin0
  have hjQ : (0 : ℚ) ≤ J := hj0.le
  have hNS : min (max ((mn : ℚ) * Ex ^ (0 : ℤ)) 0) (M : ℚ) = (mn : ℚ) := by
    rw [zpow_zero, mul_one,
      max_eq_left hminQ,
      min_eq_left (show (mn : ℚ) ≤ (M : ℚ) by exact_mod_cast hmm)]
  unfold backoffNval
  dsimp only
  rw [hNS, truncQ_intCast]
  rcases le_or_lt M mn with hcap | hcap
  · -- the magnitude is already at the cap: MinBackoff = MaxBackoff here
    rw [if_pos hcap]
    dsimp only
    have hMn : M = mn := le_antisymm hcap hmm
    have ht0 : truncQ (-J * r2 * (M : ℚ)) ≤ 0 := by
      apply truncQ_nonpos
      have : (0 : ℚ) ≤ J * r2 * (M : ℚ) := by
        apply mul_nonneg (mul_nonneg hjQ hr2a)
        rw [hMn]
        exact hminQ
      nlinarith
    split_ifs with h1 h2
    · subst hMn
      constructor
      · exact le_refl _
      · nlinarith [mul_nonneg hminQ hjQ]
    · constructor
      · exact le_refl _
      · nlinarith [mul_nonneg hminQ hjQ]
    · subst hMn
      have hlow : M ≤ M + truncQ (-J * r2 * (M : ℚ)) := by omega
      constructor
      · exact_mod_cast hlow
      · have hup : M + truncQ (-J * r2 * (M : ℚ)) ≤ M := by omega
        have hupQ : ((M + truncQ (-J * r2 * (M : ℚ)) : ℤ) : ℚ) ≤ (M : ℚ) := by
          exact_mod_cast hup
        nlinarith [mul_nonneg hminQ hjQ]
  · -- below the cap: the floor branch applies the one-sided up-jitter
    rw [if_neg (not_le.mpr hcap), if_pos (le_refl mn)]
    dsimp only
    have hprod : (0 : ℚ) ≤ J * r2 * (mn : ℚ) :=
      mul_nonneg (mul_nonneg hjQ hr2a) hminQ
    have ht0 : 0 ≤ truncQ (J * r2 * (mn : ℚ)) := truncQ_nonneg hprod
    have htle : (truncQ (J * r2 * (mn : ℚ)) : ℚ) ≤ J * r2 * (mn : ℚ) :=
      truncQ_le_self hprod
    have hJr : J * r2 * (mn : ℚ) ≤ J * (mn : ℚ) := by
      nlinarith [mul_nonneg hjQ hminQ]
    split_ifs with h1 h2
    · constructor
      · exact_mod_cast hmm
      · have : ((M : ℤ) : ℚ) < ((mn + truncQ (J * r2 * (mn : ℚ)) : ℤ) : ℚ) := by
          exact_mod_cast h1
        push_cast at this
        nlinarith
    · constructor
      · exact le_refl _
      · nlinarith [mul_nonneg hminQ hjQ]
    · constructor
      · have : mn ≤ mn + truncQ (J * r2 * (mn : ℚ)) := by omega
        exact_mod_cast this
      · push_cast
        nlinarith

/-- Witness for C6 at a concrete configuration. -/
theorem c6_backoffN_zero_bounds_witness :
    ∃ d : ℤ, Backoff.BackoffN ⟨0, 1000, 100, 1/10, 2⟩ 0 (1/2) (1/2) = some d ∧
      ((100 : ℤ) : ℚ) ≤ (d : ℚ) ∧ (d : ℚ) ≤ ((100 : ℤ) : ℚ) * (1 + 1/10) :=
  c6_backoffN_zero_bounds ⟨0, 1000, 100, 1/10, 2⟩ (1/2) (1/2)
    (by norm_num) (by norm_num) (by norm_num) (by norm_num) (by norm_num)
    (by norm_num) (by norm_num)

/-- Model of `Error`: an error that occurs at a particular time. `When` is the clock
timestamp (nanoseconds); `Err` is the underlying error of type `E`. -/
structure Error (E : Type) where
  When : ℤ
  Err : E
deriving DecidableEq, Repr

/-- Model of `Errors`: a collection of errors that happen across multiple retries. -/
structure Errors (E : Type) where
  Errs : List (Error E)
deriving DecidableEq, Repr

/-- The possible values of Go's `ctx.Err()` once a context is done. -/
inductive CtxCause where
  | deadlineExceeded : CtxCause
  | canceled : CtxCause
deriving DecidableEq, Repr

/-- Model of `Errors.Unwrap` (pre-go1.20 build): returns the most recent error that
occured during retrying, or `nil` (`none`) when no error was recorded. -/
def Errors.Unwrap {E : Type} (e : Errors E) : Option (Error E) :=
  if h : e.Errs.length = 0 then none
  else some (e.Errs.get ⟨e.Errs.length - 1, by omega⟩)

/-- The value returned by `Retryable.Retry`, distinguishing the return
paths of the Go code: `success` is the `nil` return after `f` succeeds;
`filtered e` is the raw unwrapped error returned when `ShouldRetry` rejects
`e`; `ctxErrors` is the `*CtxErrors` value (accumulated `Errors` plus the
`CtxErr` cause); `exhausted` is the plain `*Errors` value returned when the
step budget runs out; `panicked` is the `MinBackoff > MaxBackoff`
configuration fault raised from `BackoffN`. -/
inductive RetryResult (E : Type) where
  | success : RetryResult E
  | filtered (e : E) : RetryResult E
  | ctxErrors (errs : Errors E) (ctxErr : CtxCause) : RetryResult E
  | exhausted (errs : Errors E) : RetryResult E
  | panicked : RetryResult E
deriving DecidableEq, Repr

/-- The external collaborators of one `Retry` run, as oracles indexed by the
loop-iteration counter `n`:
* `fRes n`: result of the `n`-th call of the operation `f` (`none` = no
  error);
* `now n`: `clock().Now()` when recording the `n`-th error;
* `hasDeadline`: whether `ctx.Deadline()` reports a deadline;
* `remaining n`: `clock().Until(dl)` at the `n`-th deadline pre-check;
* `sleepOk n`: result of `clock().SleepFor(ctx, ·)` at the `n`-th sleep
  (`false` = interrupted by context cancellation);
* `ctxErrAt n`: `ctx.Err()` observed when the `n`-th sleep is interrupted;
* `rand1 n`, `rand2 n`: the prng draws consumed by the `n`-th `BackoffN`. -/
structure RetryEnv (E : Type) where
  fRes : ℕ → Option E
  now : ℕ → ℤ
  hasDeadline : Bool
  remaining : ℕ → ℤ
  sleepOk : ℕ → Bool
  ctxErrAt : ℕ → CtxCause
  rand1 : ℕ → ℚ
  rand2 : ℕ → ℚ

/-- Observable outcome of a `Retry` run: the returned value, the number of
invocations of the operation `f`, and the list of durations passed to
`clock().SleepFor` (in order, including an interrupted final sleep). -/
structure RetryOutcome (E : Type) where
  result : RetryResult E
  calls : ℕ
  sleepCalls : List ℤ
deriving DecidableEq, Repr

/-- The `for n := int32(0); n < r.MaxSteps; n++` loop of `Retryable.Retry`:
`fuel` is the number of remaining iterations, `b` the cloned-and-reset
backoff state, `n` the iteration counter, `acc` the accumulated `Errs` slice.
Each iteration: call `f`; on success return `nil`; if the filter rejects,
return the raw error; otherwise append `&Error{When: clock.Now(), Err: err}`,
compute `nextStep := b.Next()`, return `&CtxErrors{errors,
context.DeadlineExceeded}` if the deadline pre-check fails, sleep, and on an
interrupted sleep return `&CtxErrors{errors, ctx.Err()}`. -/
def retryAux {E : Type} (filter : E → Bool) (env : RetryEnv E) :
    ℕ → Backoff → ℕ → List (Error E) → RetryOutcome E
  | 0, _b, _n, acc => ⟨.exhausted ⟨acc⟩, 0, []⟩
  | fuel + 1, b, n, acc =>
    match env.fRes n with
    | none => ⟨.success, 1, []⟩
    | some e =>
      if filter e then
        let acc' := acc ++ [⟨env.now n, e⟩]
        match b.Next (env.rand1 n) (env.rand2 n) with
        | (none, _) => ⟨.panicked, 1, []⟩
        | (some d, b') =>
          if env.hasDeadline = true ∧ env.remaining n < d then
            ⟨.ctxErrors ⟨acc'⟩ .deadlineExceeded, 1, []⟩
          else if env.sleepOk n then
            let rest := retryAux filter env fuel b' (n + 1) acc'
            ⟨rest.result, rest.calls + 1, d :: rest.sleepCalls⟩
          else
            ⟨.ctxErrors ⟨acc'⟩ (env.ctxErrAt n), 1, [d]⟩
      else ⟨.filtered e, 1, []⟩

/-- The `Retryable` struct: backoff parameters, the `ShouldRetry` filter
(`none` = nil, meaning "always retry"), and the maximum number of attempts
(`int32`; the external `Clock` is modelled by `RetryEnv`). -/
structure Retryable (E : Type) where
  B : Backoff
  ShouldRetry : Option (E → Bool)
  MaxSteps : ℤ

/-- The effective filter: `ShouldRetry`, or the uniformly-true function when
`ShouldRetry` is nil. -/
def Retryable.effFilter {E : Type} (r : Retryable E) : E → Bool :=
  r.ShouldRetry.getD (fun _ => true)

/-- Model of `Retryable.Retry`: clones `r.B`, resets the clone, and runs the retry
loop at most `MaxSteps` times (`int32`; a non-positive count runs zero
iterations). -/
def Retryable.Retry {E : Type} (r : Retryable E) (env : RetryEnv E) :
    RetryOutcome E :=
  retryAux r.effFilter env r.MaxSteps.toNat r.B.Clone.Reset 0 []

/-- The package-level `Retry` function: resets its by-value `Backoff`
argument, builds a throwaway `Retryable` (nil `ShouldRetry`), and delegates
to `Retryable.Retry`. -/
def Retry {E : Type} (b : Backoff) (steps : ℤ) (env : RetryEnv E) :
    RetryOutcome E :=
  Retryable.Retry ⟨b.Reset, none, steps⟩ env

-- Structural facts about `Clone`, `Reset` and `Next`.

/-- Cloning: `Clone` copies every field, so the clone equals the original value. -/
theorem Backoff.Clone_eq (b : Backoff) : b.Clone = b := by
  cases b
  rfl

/-- The first component of `Next` is always `BackoffN` at the receiver's own
`step`. -/
theorem Backoff.Next_fst (b : Backoff) (r1 r2 : ℚ) :
    (b.Next r1 r2).1 = b.BackoffN b.step r1 r2 := by
  unfold Backoff.Next
  rcases h : b.BackoffN b.step r1 r2 with _ | d <;> simp [h]

/-- With a valid configuration, `Next` returns `BackoffN(step)` and bumps
`step` by one, leaving the configuration fields unchanged. -/
theorem Backoff.Next_eq {b : Backoff} (hmm : b.MinBackoff ≤ b.MaxBackoff)
    (r1 r2 : ℚ) :
    b.Next r1 r2 = (some (backoffNval b b.step r1 r2),
      { b with step := b.step + 1 }) := by
  unfold Backoff.Next
  rw [BackoffN_eq_some hmm]

/-- Congruence: `BackoffN` depends only on the four configuration fields and `n`, never
on the `step` counter. -/
theorem BackoffN_congr {b b' : Backoff}
    (h1 : b.MaxBackoff = b'.MaxBackoff) (h2 : b.MinBackoff = b'.MinBackoff)
    (h3 : b.Jitter = b'.Jitter) (h4 : b.ExpFactor = b'.ExpFactor)
    {n n' : ℤ} (hn : n = n') (r1 r2 : ℚ) :
    b.BackoffN n r1 r2 = b'.BackoffN n' r1 r2 := by
  subst hn
  unfold Backoff.BackoffN backoffNval
  rw [h1, h2, h3, h4]

/-- C5: `Next()` returns `BackoffN` applied to the current step counter and
increments the step counter by exactly one; `BackoffN` neither reads the
`step` field (its result is invariant under changing it; the model's
`BackoffN` is pure, so it mutates nothing) — consequently, from a fresh or
`Reset` generator the first two `Next()` calls return exactly `BackoffN(0)`
and `BackoffN(1)` (on the respective prng draws). -/
theorem c5_next_stateful_wrapper (b : Backoff) (r1 r2 r3 r4 : ℚ)
    (hmm : b.MinBackoff ≤ b.MaxBackoff) :
    (b.Next r1 r2).1 = b.BackoffN b.step r1 r2
    ∧ (b.Next r1 r2).2.step = b.step + 1
    ∧ (b.Next r1 r2).2.MaxBackoff = b.MaxBackoff
    ∧ (b.Next r1 r2).2.MinBackoff = b.MinBackoff
    ∧ (b.Next r1 r2).2.Jitter = b.Jitter
    ∧ (b.Next r1 r2).2.ExpFactor = b.ExpFactor
    ∧ (∀ s n, Backoff.BackoffN { b with step := s } n r1 r2
        = b.BackoffN n r1 r2)
    ∧ (b.Reset.Next r1 r2).1 = b.BackoffN 0 r1 r2
    ∧ ((b.Reset.Next r1 r2).2.Next r3 r4).1 = b.BackoffN 1 r3 r4 := by
  have hmm' : (b.Reset).MinBackoff ≤ (b.Reset).MaxBackoff := hmm
  refine ⟨Backoff.Next_fst b r1 r2, ?_, ?_, ?_, ?_, ?_, fun s n => rfl, ?_, ?_⟩
  · rw [Backoff.Next_eq hmm]
  · rw [Backoff.Next_eq hmm]
  · rw [Backoff.Next_eq hmm]
  · rw [Backoff.Next_eq hmm]
  · rw [Backoff.Next_eq hmm]
  · rw [Backoff.Next_eq hmm', BackoffN_eq_some hmm]
    rfl
  · rw [Backoff.Next_eq hmm', Backoff.Next_fst]
    exact BackoffN_congr rfl rfl rfl rfl (by simp [Backoff.Reset]) r3 r4

/-- Witness for C5 at a concrete configuration. -/
theorem c5_next_stateful_wrapper_witness :
    ((⟨7, 1000, 100, 1/10, 2⟩ : Backoff).Next (1/2) (1/2)).1
        = (⟨7, 1000, 100, 1/10, 2⟩ : Backoff).BackoffN 7 (1/2) (1/2)
    ∧ ((⟨7, 1000, 100, 1/10, 2⟩ : Backoff).Next (1/2) (1/2)).2.step = 7 + 1
    ∧ ((⟨7, 1000, 100, 1/10, 2⟩ : Backoff).Next (1/2) (1/2)).2.MaxBackoff = 1000
    ∧ ((⟨7, 1000, 100, 1/10, 2⟩ : Backoff).Next (1/2) (1/2)).2.MinBackoff = 100
    ∧ ((⟨7, 1000, 100, 1/10, 2⟩ : Backoff).Next (1/2) (1/2)).2.Jitter = 1/10
    ∧ ((⟨7, 1000, 100, 1/10, 2⟩ : Backoff).Next (1/2) (1/2)).2.ExpFactor = 2
    ∧ (∀ s n, Backoff.BackoffN { (⟨7, 1000, 100, 1/10, 2⟩ : Backoff) with step := s }
          n (1/2) (1/2)
        = (⟨7, 1000, 100, 1/10, 2⟩ : Backoff).BackoffN n (1/2) (1/2))
    ∧ ((⟨7, 1000, 100, 1/10, 2⟩ : Backoff).Reset.Next (1/2) (1/2)).1
        = (⟨7, 1000, 100, 1/10, 2⟩ : Backoff).BackoffN 0 (1/2) (1/2)
    ∧ (((⟨7, 1000, 100, 1/10, 2⟩ : Backoff).Reset.Next (1/2) (1/2)).2.Next
          (1/3) (1/4)).1
        = (⟨7, 1000, 100, 1/10, 2⟩ : Backoff).BackoffN 1 (1/3) (1/4) :=
  c5_next_stateful_wrapper ⟨7, 1000, 100, 1/10, 2⟩ (1/2) (1/2) (1/3) (1/4)
    (by norm_num)

/-- C7: `Clone` copies every field of the receiver (including `step`), so in
the value semantics of Go structs, resetting the clone cannot change the
original: the original keeps all its fields, and a subsequent `Next()` on the
original uses the original's own (unreset) step. The package-level `Retry`
receives its `Backoff` by value and clones/resets internally, so its
observable behaviour is independent of the caller's step counter and the
caller's value is never mutated. -/
theorem c7_clone_reset_no_mutation {E : Type} (b : Backoff) (s steps : ℤ)
    (env : RetryEnv E) (r1 r2 : ℚ) :
    b.Clone = b
    ∧ b.Clone.Reset.step = 0
    ∧ b.Clone.Reset.MaxBackoff = b.MaxBackoff
    ∧ b.Clone.Reset.MinBackoff = b.MinBackoff
    ∧ b.Clone.Reset.Jitter = b.Jitter
    ∧ b.Clone.Reset.ExpFactor = b.ExpFactor
    ∧ (b.Next r1 r2).1 = b.BackoffN b.step r1 r2
    ∧ Retry { b with step := s } steps env = Retry b steps env := by
  refine ⟨Backoff.Clone_eq b, rfl, rfl, rfl, rfl, rfl, Backoff.Next_fst b r1 r2, rfl⟩

-- `Errors.Unwrap` (pre-go1.20 flavour).

/-- Unwrapping: `Errors.Unwrap` computes the last element of the recorded list (or `none`
when the list is empty). -/
theorem Errors.Unwrap_eq_getLast? {E : Type} (l : List (Error E)) :
    Errors.Unwrap ⟨l⟩ = l.getLast? := by
  unfold Errors.Unwrap
  split
  · rename_i h
    obtain rfl : l = [] := List.length_eq_zero.mp h
    rfl
  · rename_i h
    rw [List.getLast?_eq_getElem?, List.get_eq_getElem,
      List.getElem?_eq_getElem (by dsimp only at h ⊢; omega)]

/-- C8: for a non-empty recorded list, `Unwrap` returns the last-appended
(most recent) element; for the empty list it returns `nil` (`none`) rather
than indexing out of range. -/
theorem c8_unwrap_most_recent {E : Type} (l xs : List (Error E)) (x : Error E) :
    (l = [] → Errors.Unwrap (⟨l⟩ : Errors E) = none)
    ∧ (l = xs ++ [x] → Errors.Unwrap (⟨l⟩ : Errors E) = some x) := by
  constructor
  · intro h
    subst h
    rfl
  · intro h
    subst h
    rw [Errors.Unwrap_eq_getLast?, List.getLast?_concat]

/-- Witness for C8 on a concrete two-element list (and the empty list). -/
theorem c8_unwrap_most_recent_witness :
    (([⟨5, 1⟩, ⟨6, 2⟩] : List (Error ℕ)) = [] →
      Errors.Unwrap (⟨[⟨5, 1⟩, ⟨6, 2⟩]⟩ : Errors ℕ) = none)
    ∧ (([⟨5, 1⟩, ⟨6, 2⟩] : List (Error ℕ)) = [⟨5, 1⟩] ++ [⟨6, 2⟩] →
      Errors.Unwrap (⟨[⟨5, 1⟩, ⟨6, 2⟩]⟩ : Errors ℕ) = some ⟨6, 2⟩) :=
  c8_unwrap_most_recent [⟨5, 1⟩, ⟨6, 2⟩] [⟨5, 1⟩] ⟨6, 2⟩

-- Trace machinery for the retry loop.

/-- The errors recorded by iterations `n, n+1, …, n+i-1` when each of those
attempts fails with `eF j` at clock time `env.now j`. -/
def errSeg {E : Type} (env : RetryEnv E) (eF : ℕ → E) : ℕ → ℕ → List (Error E)
  | _n, 0 => []
  | n, i + 1 => ⟨env.now n, eF n⟩ :: errSeg env eF (n + 1) i

/-- The backoff durations computed (and slept) by iterations
`n, …, n+i-1`. -/
def sleepSeg {E : Type} (env : RetryEnv E) (b : Backoff) : ℕ → ℕ → List ℤ
  | _n, 0 => []
  | n, i + 1 =>
    backoffNval b (n : ℤ) (env.rand1 n) (env.rand2 n)
      :: sleepSeg env b (n + 1) i

/-- Iteration `j` of the loop "continues": the operation fails with `eF j`,
the filter keeps going, the deadline pre-check passes, and the sleep
completes uninterrupted. -/
def ContinueStep {E : Type} (filter : E → Bool) (env : RetryEnv E)
    (b : Backoff) (eF : ℕ → E) (j : ℕ) : Prop :=
  env.fRes j = some (eF j) ∧ filter (eF j) = true ∧
  ¬(env.hasDeadline = true ∧
    env.remaining j < backoffNval b (j : ℤ) (env.rand1 j) (env.rand2 j)) ∧
  env.sleepOk j = true

instance {E : Type} [DecidableEq E] (filter : E → Bool) (env : RetryEnv E)
    (b : Backoff) (eF : ℕ → E) (j : ℕ) :
    Decidable (ContinueStep filter env b eF j) := by
  unfold ContinueStep
  infer_instance

theorem errSeg_snoc {E : Type} (env : RetryEnv E) (eF : ℕ → E) :
    ∀ (i n : ℕ), errSeg env eF n i ++ [⟨env.now (n + i), eF (n + i)⟩]
      = errSeg env eF n (i + 1)
  | 0, n => by simp [errSeg]
  | i + 1, n => by
    rw [errSeg, errSeg, List.cons_append,
      show n + (i + 1) = (n + 1) + i by omega]
    rw [errSeg_snoc env eF i (n + 1)]

theorem errSeg_eq_map {E : Type} (env : RetryEnv E) (eF : ℕ → E) :
    ∀ (i n : ℕ), errSeg env eF n i
      = (List.range i).map (fun j => ⟨env.now (n + j), eF (n + j)⟩)
  | 0, _n => by simp [errSeg]
  | i + 1, n => by
    rw [errSeg, errSeg_eq_map env eF i (n + 1), List.range_succ_eq_map]
    simp only [List.map_cons, List.map_map]
    congr 1
    apply List.map_congr_left
    intro a _
    simp only [Function.comp_apply]
    rw [show n + 1 + a = n + (a + 1) by omega]

theorem sleepSeg_length {E : Type} (env : RetryEnv E) (b : Backoff) :
    ∀ (i n : ℕ), (sleepSeg env b n i).length = i
  | 0, _n => rfl
  | i + 1, n => by
    rw [sleepSeg, List.length_cons, sleepSeg_length env b i (n + 1)]

/-- Purity: `backoffNval` never reads the `step` field. -/
theorem backoffNval_stepSet (b0 : Backoff) (s n : ℤ) (r1 r2 : ℚ) :
    backoffNval { b0 with step := s } n r1 r2 = backoffNval b0 n r1 r2 := rfl

/-- One continuing iteration of the loop: the attempt fails, the filter says
go on, the deadline pre-check passes and the sleep completes, so the loop
records the error, consumes one fuel, performs one sleep and moves on with
the bumped backoff state. -/
theorem retryAux_cont_step {E : Type} (filter : E → Bool) (env : RetryEnv E)
    (b0 : Backoff) (eF : ℕ → E) (hmm : b0.MinBackoff ≤ b0.MaxBackoff)
    (fuel n : ℕ) (acc : List (Error E))
    (hc : ContinueStep filter env b0 eF n) :
    retryAux filter env (fuel + 1) { b0 with step := (n : ℤ) } n acc
      = { result := (retryAux filter env fuel { b0 with step := (n : ℤ) + 1 }
            (n + 1) (acc ++ [⟨env.now n, eF n⟩])).result
          calls := (retryAux filter env fuel { b0 with step := (n : ℤ) + 1 }
            (n + 1) (acc ++ [⟨env.now n, eF n⟩])).calls + 1
          sleepCalls := backoffNval b0 (n : ℤ) (env.rand1 n) (env.rand2 n)
            :: (retryAux filter env fuel { b0 with step := (n : ℤ) + 1 }
              (n + 1) (acc ++ [⟨env.now n, eF n⟩])).sleepCalls } := by
  obtain ⟨hf, hfil, hdl, hsl⟩ := hc
  have hnext := Backoff.Next_eq (b := { b0 with step := (n : ℤ) }) hmm
    (env.rand1 n) (env.rand2 n)
  simp only [retryAux, hf, hfil, hnext, backoffNval_stepSet, if_true]
  rw [if_neg hdl, hsl]
  simp

/-- Advancing the loop over `i` consecutive continuing iterations: the
accumulated errors grow by `errSeg`, one fuel and one sleep are consumed per
iteration, and the backoff step counter tracks the iteration counter. -/
theorem retryAux_advance {E : Type} (filter : E → Bool) (env : RetryEnv E)
    (b0 : Backoff) (eF : ℕ → E) (hmm : b0.MinBackoff ≤ b0.MaxBackoff) :
    ∀ (i fuel n : ℕ) (acc : List (Error E)), i ≤ fuel →
    (∀ j, n ≤ j → j < n + i → ContinueStep filter env b0 eF j) →
    retryAux filter env fuel { b0 with step := (n : ℤ) } n acc
      = { result := (retryAux filter env (fuel - i)
            { b0 with step := ((n + i : ℕ) : ℤ) } (n + i)
            (acc ++ errSeg env eF n i)).result
          calls := (retryAux filter env (fuel - i)
            { b0 with step := ((n + i : ℕ) : ℤ) } (n + i)
            (acc ++ errSeg env eF n i)).calls + i
          sleepCalls := sleepSeg env b0 n i ++ (retryAux filter env (fuel - i)
            { b0 with step := ((n + i : ℕ) : ℤ) } (n + i)
            (acc ++ errSeg env eF n i)).sleepCalls }
  | 0, fuel, n, acc, _hif, _hc => by
      simp [errSeg, sleepSeg]
  | i + 1, fuel, n, acc, hif, hc => by
      obtain ⟨f, rfl⟩ : ∃ f, fuel = f + 1 := ⟨fuel - 1, by omega⟩
      rw [retryAux_cont_step filter env b0 eF hmm f n acc
        (hc n (le_refl n) (by omega))]
      rw [show ((n : ℤ) + 1) = ((n + 1 : ℕ) : ℤ) by push_cast; ring]
      rw [retryAux_advance filter env b0 eF hmm i f (n + 1)
        (acc ++ [(⟨env.now n, eF n⟩ : Error E)]) (by omega)
        (fun j h1 h2 => hc j (by omega) (by omega))]
      simp [errSeg, sleepSeg, Nat.succ_sub_succ, List.append_assoc,
        show n + (i + 1) = n + 1 + i by omega, add_assoc]

/-- Unfolding `Retryable.Retry` in terms of the loop: fresh clone, reset step. -/
theorem Retryable.Retry_eq {E : Type} (r : Retryable E) (env : RetryEnv E) :
    r.Retry env = retryAux r.effFilter env r.MaxSteps.toNat
      { r.B with step := ((0 : ℕ) : ℤ) } 0 [] := by
  unfold Retryable.Retry
  rw [Backoff.Clone_eq]
  rfl

/-- C9: when `MaxSteps` is 0 (or negative) the loop body never runs: the
operation is never invoked, no sleep happens, and the returned value is the
accumulated (empty, but non-nil) `Errors` value — not the `nil` success
return. -/
theorem c9_zero_max_steps {E : Type} (r : Retryable E) (env : RetryEnv E)
    (hms : r.MaxSteps ≤ 0) :
    r.Retry env = ⟨.exhausted ⟨[]⟩, 0, []⟩
    ∧ (r.Retry env).result ≠ .success := by
  have h0 : r.MaxSteps.toNat = 0 := by omega
  rw [Retryable.Retry_eq, h0]
  exact ⟨rfl, by simp [retryAux]⟩

/-- Witness for C9: `MaxSteps = 0` with an always-failing operation. -/
theorem c9_zero_max_steps_witness :
    (Retryable.Retry ⟨⟨0, 1000, 100, 1/10, 2⟩, none, 0⟩
        ⟨fun _ => some 7, fun j => (j : ℤ), false, fun _ => 0, fun _ => true,
          fun _ => .canceled, fun _ => 1/2, fun _ => 1/2⟩
      = ⟨.exhausted ⟨[]⟩, 0, []⟩)
    ∧ (Retryable.Retry (E := ℕ) ⟨⟨0, 1000, 100, 1/10, 2⟩, none, 0⟩
        ⟨fun _ => some 7, fun j => (j : ℤ), false, fun _ => 0, fun _ => true,
          fun _ => .canceled, fun _ => 1/2, fun _ => 1/2⟩).result
      ≠ .success :=
  c9_zero_max_steps ⟨⟨0, 1000, 100, 1/10, 2⟩, none, 0⟩ _ (by norm_num)

/-- C3: when the operation fails on every invocation, the filter always
continues, there is no deadline and no sleep is interrupted, `Retry` with
`MaxSteps = k > 0` invokes the operation exactly `k` times and returns the
plain (non-deadline) `Errors` value holding exactly `k` recorded errors, one
per invocation, in attempt order (and performs `k` sleeps, one after each
failed attempt, the last one included). -/
theorem c3_exhaustion {E : Type} (r : Retryable E) (env : RetryEnv E)
    (eF : ℕ → E) (k : ℕ)
    (hmm : r.B.MinBackoff ≤ r.B.MaxBackoff)
    (hk : 0 < k) (hms : r.MaxSteps = (k : ℤ))
    (hfail : ∀ j, j < k → env.fRes j = some (eF j))
    (hfilt : ∀ j, j < k → r.effFilter (eF j) = true)
    (hnd : env.hasDeadline = false)
    (hsleep : ∀ j, j < k → env.sleepOk j = true) :
    (r.Retry env).result
      = .exhausted ⟨(List.range k).map (fun j => ⟨env.now j, eF j⟩)⟩
    ∧ (r.Retry env).calls = k
    ∧ (r.Retry env).sleepCalls.length = k := by
  have htn : r.MaxSteps.toNat = k := by omega
  have hcont : ∀ j, 0 ≤ j → j < 0 + k → ContinueStep r.effFilter env r.B eF j := by
    intro j _ hj
    refine ⟨hfail j (by omega), hfilt j (by omega), ?_, hsleep j (by omega)⟩
    rw [hnd]
    rintro ⟨h, _⟩
    exact absurd h (by simp)
  rw [Retryable.Retry_eq, htn,
    retryAux_advance r.effFilter env r.B eF hmm k k 0 [] (le_refl k) hcont]
  simp [retryAux, errSeg_eq_map, sleepSeg_length]

/-- Witness for C3: three always-failing attempts, `MaxSteps = 3`. -/
theorem c3_exhaustion_witness :
    ((Retryable.Retry ⟨⟨0, 1000, 100, 1/10, 2⟩, none, 3⟩
        ⟨fun _ => some 7, fun j => (j : ℤ), false, fun _ => 0, fun _ => true,
          fun _ => .canceled, fun _ => 1/2, fun _ => 1/2⟩).result
      = .exhausted ⟨(List.range 3).map (fun j => ⟨(j : ℤ), 7⟩)⟩)
    ∧ (Retryable.Retry (E := ℕ) ⟨⟨0, 1000, 100, 1/10, 2⟩, none, 3⟩
        ⟨fun _ => some 7, fun j => (j : ℤ), false, fun _ => 0, fun _ => true,
          fun _ => .canceled, fun _ => 1/2, fun _ => 1/2⟩).calls = 3
    ∧ (Retryable.Retry (E := ℕ) ⟨⟨0, 1000, 100, 1/10, 2⟩, none, 3⟩
        ⟨fun _ => some 7, fun j => (j : ℤ), false, fun _ => 0, fun _ => true,
          fun _ => .canceled, fun _ => 1/2, fun _ => 1/2⟩).sleepCalls.length = 3 :=
  c3_exhaustion ⟨⟨0, 1000, 100, 1/10, 2⟩, none, 3⟩ _ (fun _ => 7) 3
    (by norm_num) (by norm_num) rfl (fun j _ => rfl) (fun j _ => rfl) rfl
    (fun j _ => rfl)

/-- If the loop reaches iteration `i` (all earlier iterations continued),
attempt `i` fails, the filter continues, and the remaining time to the
deadline is below the next computed backoff, then `Retry` returns the
`CtxErrors` value (accumulated errors, `context.DeadlineExceeded`) without
performing the `i`-th sleep. -/
theorem retry_deadline_abort {E : Type} (r : Retryable E) (env : RetryEnv E)
    (eF : ℕ → E) (i : ℕ)
    (hmm : r.B.MinBackoff ≤ r.B.MaxBackoff)
    (hdl : env.hasDeadline = true)
    (hi : (i : ℤ) < r.MaxSteps)
    (hcont : ∀ j, j < i → ContinueStep r.effFilter env r.B eF j)
    (hf : env.fRes i = some (eF i))
    (hfilt : r.effFilter (eF i) = true)
    (hrem : env.remaining i
      < backoffNval r.B (i : ℤ) (env.rand1 i) (env.rand2 i)) :
    (r.Retry env).result = .ctxErrors
        ⟨(List.range (i + 1)).map (fun j => ⟨env.now j, eF j⟩)⟩
        .deadlineExceeded
    ∧ (r.Retry env).calls = i + 1
    ∧ (r.Retry env).sleepCalls.length = i := by
  have hfuel : i < r.MaxSteps.toNat := by omega
  rw [Retryable.Retry_eq,
    retryAux_advance r.effFilter env r.B eF hmm i r.MaxSteps.toNat 0 []
      (by omega) (fun j _ hj => hcont j (by omega))]
  obtain ⟨f, hf2⟩ : ∃ f, r.MaxSteps.toNat - i = f + 1 :=
    ⟨r.MaxSteps.toNat - i - 1, by omega⟩
  rw [hf2]
  have hnext := Backoff.Next_eq (b := { r.B with step := ((0 + i : ℕ) : ℤ) })
    hmm (env.rand1 (0 + i)) (env.rand2 (0 + i))
  simp only [Nat.zero_add, List.nil_append] at hnext ⊢
  simp only [retryAux, hf, hfilt, hnext, backoffNval_stepSet, if_true]
  rw [if_pos ⟨hdl, hrem⟩]
  refine ⟨?_, by simp [Nat.add_comm], by simp [sleepSeg_length]⟩
  simp only [RetryResult.ctxErrors.injEq, Errors.mk.injEq, and_true]
  have hsnoc := errSeg_snoc env eF i 0
  simp only [Nat.zero_add] at hsnoc
  rw [hsnoc, errSeg_eq_map]
  simp

/-- C2: when the context carries a deadline and, after a failed attempt, the
remaining time until the deadline is less than the next computed backoff
duration, `Retry` aborts immediately — the operation was called `i+1` times
but only `i` sleeps ever happened, so the aborting iteration never called
`SleepFor` — returning a `CtxErrors` wrapping the accumulated error list
whose `CtxErr` field is `context.DeadlineExceeded`. -/
theorem c2_deadline_precheck_abort {E : Type} (r : Retryable E)
    (env : RetryEnv E) (eF : ℕ → E) (i : ℕ)
    (hmm : r.B.MinBackoff ≤ r.B.MaxBackoff)
    (hdl : env.hasDeadline = true)
    (hi : (i : ℤ) < r.MaxSteps)
    (hcont : ∀ j, j < i → ContinueStep r.effFilter env r.B eF j)
    (hf : env.fRes i = some (eF i))
    (hfilt : r.effFilter (eF i) = true)
    (hrem : env.remaining i
      < backoffNval r.B (i : ℤ) (env.rand1 i) (env.rand2 i)) :
    (r.Retry env).result = .ctxErrors
        ⟨(List.range (i + 1)).map (fun j => ⟨env.now j, eF j⟩)⟩
        .deadlineExceeded
    ∧ (r.Retry env).calls = i + 1
    ∧ (r.Retry env).sleepCalls.length = i :=
  retry_deadline_abort r env eF i hmm hdl hi hcont hf hfilt hrem

/-- Witness for C2: deadline pre-check aborts at iteration 2 (backoff
values 105, 200, 400 against 250 remaining). -/
theorem c2_deadline_precheck_abort_witness :
    ((Retryable.Retry ⟨⟨0, 1000, 100, 1/10, 2⟩, none, 5⟩
        ⟨fun _ => some 7, fun j => (j : ℤ), true, fun _ => 250, fun _ => true,
          fun _ => .canceled, fun _ => 1/2, fun _ => 1/2⟩).result
      = .ctxErrors ⟨(List.range (2 + 1)).map (fun j => ⟨(j : ℤ), 7⟩)⟩
          .deadlineExceeded)
    ∧ (Retryable.Retry (E := ℕ) ⟨⟨0, 1000, 100, 1/10, 2⟩, none, 5⟩
        ⟨fun _ => some 7, fun j => (j : ℤ), true, fun _ => 250, fun _ => true,
          fun _ => .canceled, fun _ => 1/2, fun _ => 1/2⟩).calls = 2 + 1
    ∧ (Retryable.Retry (E := ℕ) ⟨⟨0, 1000, 100, 1/10, 2⟩, none, 5⟩
        ⟨fun _ => some 7, fun j => (j : ℤ), true, fun _ => 250, fun _ => true,
          fun _ => .canceled, fun _ => 1/2, fun _ => 1/2⟩).sleepCalls.length
      = 2 :=
  c2_deadline_precheck_abort ⟨⟨0, 1000, 100, 1/10, 2⟩, none, 5⟩ _ (fun _ => 7) 2
    (by norm_num) rfl (by norm_num)
    (by
      intro j hj
      interval_cases j <;>
        exact ⟨rfl, rfl, by norm_num [backoffNval, truncQ], rfl⟩)
    rfl rfl (by norm_num [backoffNval, truncQ])

/-- C10: after the final allowed attempt (number `MaxSteps`) fails and its
error is recorded, the driver still computes one more backoff duration and
performs the deadline pre-check before the final sleep; hence with a
deadline it can return a deadline-tagged `CtxErrors` holding exactly
`MaxSteps` recorded errors instead of the plain exhaustion `Errors` value
(only `MaxSteps - 1` sleeps happened: the pre-check fired in place of the
final sleep). -/
theorem c10_final_attempt_deadline {E : Type} (r : Retryable E)
    (env : RetryEnv E) (eF : ℕ → E) (k : ℕ)
    (hmm : r.B.MinBackoff ≤ r.B.MaxBackoff)
    (hk : 0 < k) (hms : r.MaxSteps = (k : ℤ))
    (hdl : env.hasDeadline = true)
    (hcont : ∀ j, j < k - 1 → ContinueStep r.effFilter env r.B eF j)
    (hf : env.fRes (k - 1) = some (eF (k - 1)))
    (hfilt : r.effFilter (eF (k - 1)) = true)
    (hrem : env.remaining (k - 1)
      < backoffNval r.B ((k - 1 : ℕ) : ℤ) (env.rand1 (k - 1))
          (env.rand2 (k - 1))) :
    (r.Retry env).result = .ctxErrors
        ⟨(List.range k).map (fun j => ⟨env.now j, eF j⟩)⟩ .deadlineExceeded
    ∧ (r.Retry env).calls = k
    ∧ (r.Retry env).sleepCalls.length = k - 1 := by
  have h := retry_deadline_abort r env eF (k - 1) hmm hdl
    (by omega) hcont hf hfilt hrem
  rw [show k - 1 + 1 = k by omega] at h
  exact h

/-- Witness for C10: `MaxSteps = 3`; the third (final) attempt records its
error, then the pre-check fires (backoff 400 against 250 remaining). -/
theorem c10_final_attempt_deadline_witness :
    ((Retryable.Retry ⟨⟨0, 1000, 100, 1/10, 2⟩, none, 3⟩
        ⟨fun _ => some 7, fun j => (j : ℤ), true, fun _ => 250, fun _ => true,
          fun _ => .canceled, fun _ => 1/2, fun _ => 1/2⟩).result
      = .ctxErrors ⟨(List.range 3).map (fun j => ⟨(j : ℤ), 7⟩)⟩
          .deadlineExceeded)
    ∧ (Retryable.Retry (E := ℕ) ⟨⟨0, 1000, 100, 1/10, 2⟩, none, 3⟩
        ⟨fun _ => some 7, fun j => (j : ℤ), true, fun _ => 250, fun _ => true,
          fun _ => .canceled, fun _ => 1/2, fun _ => 1/2⟩).calls = 3
    ∧ (Retryable.Retry (E := ℕ) ⟨⟨0, 1000, 100, 1/10, 2⟩, none, 3⟩
        ⟨fun _ => some 7, fun j => (j : ℤ), true, fun _ => 250, fun _ => true,
          fun _ => .canceled, fun _ => 1/2, fun _ => 1/2⟩).sleepCalls.length
      = 3 - 1 :=
  c10_final_attempt_deadline ⟨⟨0, 1000, 100, 1/10, 2⟩, none, 3⟩ _ (fun _ => 7) 3
    (by norm_num) (by norm_num) rfl rfl
    (by
      intro j hj
      interval_cases j <;>
        exact ⟨rfl, rfl, by norm_num [backoffNval, truncQ], rfl⟩)
    rfl rfl (by norm_num [backoffNval, truncQ])

/-- C4: if the operation's error is rejected by the filter, `Retry` stops
right there and returns that operation error itself, unwrapped: the
`filtered` return path carries the raw error only — no `Errors`/`CtxErrors`
wrapper is built from it and nothing further is recorded (at `i = 0` no
error set entry is ever created). -/
theorem c4_filter_rejects_raw {E : Type} (r : Retryable E) (env : RetryEnv E)
    (eF : ℕ → E) (e : E) (i : ℕ)
    (hmm : r.B.MinBackoff ≤ r.B.MaxBackoff)
    (hi : (i : ℤ) < r.MaxSteps)
    (hcont : ∀ j, j < i → ContinueStep r.effFilter env r.B eF j)
    (hf : env.fRes i = some e)
    (hfilt : r.effFilter e = false) :
    (r.Retry env).result = .filtered e
    ∧ (r.Retry env).calls = i + 1
    ∧ (r.Retry env).sleepCalls.length = i := by
  have hfuel : i < r.MaxSteps.toNat := by omega
  rw [Retryable.Retry_eq,
    retryAux_advance r.effFilter env r.B eF hmm i r.MaxSteps.toNat 0 []
      (by omega) (fun j _ hj => hcont j (by omega))]
  obtain ⟨f, hf2⟩ : ∃ f, r.MaxSteps.toNat - i = f + 1 :=
    ⟨r.MaxSteps.toNat - i - 1, by omega⟩
  rw [hf2]
  simp only [Nat.zero_add]
  simp only [retryAux, hf]
  rw [if_neg (by simp [hfilt])]
  exact ⟨rfl, by simp [Nat.add_comm], by simp [sleepSeg_length]⟩

/-- Witness for C4: the first attempt's error 7 is rejected by the filter
`fun e => decide (e ≠ 7)`; the raw error comes back after one call and no
sleep. -/
theorem c4_filter_rejects_raw_witness :
    ((Retryable.Retry ⟨⟨0, 1000, 100, 1/10, 2⟩,
          some (fun e => decide (e ≠ 7)), 5⟩
        ⟨fun _ => some 7, fun j => (j : ℤ), false, fun _ => 0, fun _ => true,
          fun _ => .canceled, fun _ => 1/2, fun _ => 1/2⟩).result
      = .filtered 7)
    ∧ (Retryable.Retry (E := ℕ) ⟨⟨0, 1000, 100, 1/10, 2⟩,
          some (fun e => decide (e ≠ 7)), 5⟩
        ⟨fun _ => some 7, fun j => (j : ℤ), false, fun _ => 0, fun _ => true,
          fun _ => .canceled, fun _ => 1/2, fun _ => 1/2⟩).calls = 0 + 1
    ∧ (Retryable.Retry (E := ℕ) ⟨⟨0, 1000, 100, 1/10, 2⟩,
          some (fun e => decide (e ≠ 7)), 5⟩
        ⟨fun _ => some 7, fun j => (j : ℤ), false, fun _ => 0, fun _ => true,
          fun _ => .canceled, fun _ => 1/2, fun _ => 1/2⟩).sleepCalls.length
      = 0 :=
  c4_filter_rejects_raw ⟨⟨0, 1000, 100, 1/10, 2⟩,
      some (fun e => decide (e ≠ 7)), 5⟩ _ (fun _ => 7) 7 0
    (by norm_num) (by norm_num) (by omega) rfl rfl
